import Mathlib

/-!
# Inventory application: catalog controllers

A shallow embedding of the request handlers of the music-inventory catalog
(`controllers/categoryController.js`, `controllers/songController.js`,
`models/song.js`, `routes/catalog.js`) together with the properties of the
delete guard, the create/update validation paths and the category marking
loops.

Conventions of the embedding.

* The document store is a record of three collections, each a list of
  documents in storage order.  A handler is a function from the store (and the
  request) to the store afterwards and the response it produced.
* A response is one of: a rendered view with its data bag, a redirect, an error
  handed to `next`, or an exception thrown by the handler body.
* Every storage call of the source has an `if (err) return next(err)` branch.
  The driver record carries, per storage operation, the failure (if any) that
  the operation reports, so these branches are part of the model.
* Object identifiers submitted with a request are taken as already cast to
  `ObjectId`.
-/

namespace Inventory

/-! ## Data model -/

/-- Document identifier; `hex` is its string form. -/
structure ObjectId where
  hex : String
  deriving DecidableEq, Repr

/-- The string form of an identifier, `_id.toString()`. -/
def ObjectId.toString (i : ObjectId) : String := i.hex

/-- JavaScript error value: `name`, `message` and the optional `status` marker. -/
structure Error where
  name : String
  message : String
  status : Option Nat := none
  deriving DecidableEq, Repr

/-- Modelled from the spec: the Author record (`models/author.js` is not among
the sources): an identity and a name. -/
structure Author where
  _id : ObjectId
  name : String
  deriving DecidableEq, Repr

/-- Modelled from the spec: the Category record (`models/category.js` is not
among the sources): an identity and a name.  `checked` is the ad hoc property
that the song form handlers set on a queried document (`undefined` until set). -/
structure Category where
  _id : ObjectId
  name : String
  checked : Option String := none
  deriving DecidableEq, Repr

/-- Image payload of a Song (`image: { data: Buffer, contentType: String }`). -/
structure Image where
  data : List Nat
  contentType : String
  deriving DecidableEq, Repr

/-- Stored Song document, after `models/song.js`.  The two numeric fields are
kept as their decimal text; nothing below computes with them. -/
structure Song where
  _id : ObjectId
  title : String
  author : ObjectId
  summary : String
  price : String
  stock : String
  image : Option Image
  category : List ObjectId
  deriving DecidableEq, Repr

/-- The `url` virtual of `models/song.js`. -/
def Song.url (s : Song) : String := "/catalog/song/" ++ s._id.toString

/-- Song document after `.populate('author').populate('category')`. -/
structure PopulatedSong where
  _id : ObjectId
  title : String
  author : Option Author
  summary : String
  price : String
  stock : String
  image : Option Image
  category : List Category
  deriving DecidableEq, Repr

/-- The three collections of the store. -/
structure Store where
  authors : List Author
  categories : List Category
  songs : List Song
  deriving DecidableEq, Repr

/-! ## Validation and sanitisation (express-validator chains) -/

/-- One validation failure: the offending field, the message, the value checked. -/
structure ValidationError where
  param : String
  msg : String
  value : String
  deriving DecidableEq, Repr

/-- Characters matched by the JavaScript regular-expression class `\s`. -/
def isJsSpace (c : Char) : Bool :=
  decide (c.toNat ∈ [9, 10, 11, 12, 13, 32, 160, 5760, 8232, 8233, 8239, 8287, 12288, 65279])
    || (decide (8192 ≤ c.toNat) && decide (c.toNat ≤ 8202))

/-- The sanitizer `trim()` on the characters of a string: leading and trailing
whitespace removed. -/
def trimChars (l : List Char) : List Char :=
  ((l.dropWhile isJsSpace).reverse.dropWhile isJsSpace).reverse

/-- The sanitizer `trim()`. -/
def trim (s : String) : String := String.mk (trimChars s.data)

/-- Characters of the class `[0-9A-Z]` under the case-insensitive flag. -/
def isAlnumChar (c : Char) : Bool :=
  (decide (48 ≤ c.toNat) && decide (c.toNat ≤ 57))
    || (decide (65 ≤ c.toNat) && decide (c.toNat ≤ 90))
    || (decide (97 ≤ c.toNat) && decide (c.toNat ≤ 122))

/-- The validator `isAlphanumeric()` (default locale): `/^[0-9A-Z]+$/i`. -/
def isAlphanumeric (s : String) : Bool :=
  !s.data.isEmpty && s.data.all isAlnumChar

/-- The validator `isLength({ min: 1 })`. -/
def isLengthMin1 (s : String) : Bool := decide (1 ≤ s.data.length)

/-- Replacement text of the sanitizer `escape()` for one character. -/
def escapeChar (c : Char) : List Char :=
  if c.toNat = 38 then "&amp;".data
  else if c.toNat = 34 then "&quot;".data
  else if c.toNat = 39 then "&#x27;".data
  else if c.toNat = 60 then "&lt;".data
  else if c.toNat = 62 then "&gt;".data
  else if c.toNat = 47 then "&#x2F;".data
  else if c.toNat = 92 then "&#x5C;".data
  else if c.toNat = 96 then "&#96;".data
  else [c]

/-- The sanitizer `escape()`. -/
def escape (s : String) : String := String.mk (s.data.flatMap escapeChar)

/-- The chain of `category_create_post`:
`body('name', 'Category name required').trim().isLength({ min: 1 })
 .isAlphanumeric().withMessage('Category is non-alphanumeric characters.').escape()`.
Returns the sanitised field and the failures, in chain order. -/
def validateCategoryName (name : String) : String × List ValidationError :=
  let t := trim name
  let e1 := if isLengthMin1 t then [] else [ValidationError.mk "name" "Category name required" t]
  let e2 := if isAlphanumeric t then []
            else [ValidationError.mk "name" "Category is non-alphanumeric characters." t]
  (escape t, e1 ++ e2)

/-- A chain `body(field, msg).trim().isLength({ min: 1 }).escape()`. -/
def validateRequired (field msg value : String) : String × List ValidationError :=
  let t := trim value
  (escape t, if isLengthMin1 t then [] else [ValidationError.mk field msg t])

/-! ## Storage driver -/

/-- The `image` handed to `new Song({...})`: the payload read from the upload
(create) or the text of the body field (update). -/
inductive ImageField where
  | payload (img : Image)
  | text (v : String)
  deriving DecidableEq, Repr

/-- Submitted Song fields as handed to `new Song({...})`. -/
structure SongDraft where
  _id : ObjectId
  title : String
  author : String
  summary : String
  price : String
  stock : String
  category : List String
  image : ImageField
  deriving DecidableEq, Repr

/-- What the handlers take from outside the sources: per storage operation the
failure it reports (if any), the identifier given to a newly constructed
document, the `url` virtual and schema validation of the Category model, and
the schema casting of a Song on write. -/
structure Driver where
  fault : String → Option Error
  newId : ObjectId
  categoryUrl : Category → String
  categoryInvalid : Category → Option Error
  castSong : SongDraft → Except Error Song

/-- No storage operation reports a failure. -/
def Driver.healthy (d : Driver) : Prop := ∀ op, d.fault op = none

/-- `Category.findById(id)`. -/
def Category.findById (d : Driver) (s : Store) (id : ObjectId) : Except Error (Option Category) :=
  match d.fault "Category.findById" with
  | some e => .error e
  | none => .ok (s.categories.find? (fun c => decide (c._id = id)))

/-- `Category.findOne({ name })`. -/
def Category.findOne (d : Driver) (s : Store) (name : String) : Except Error (Option Category) :=
  match d.fault "Category.findOne" with
  | some e => .error e
  | none => .ok (s.categories.find? (fun c => decide (c.name = name)))

/-- `Category.find()`. -/
def Category.find (d : Driver) (s : Store) : Except Error (List Category) :=
  match d.fault "Category.find" with
  | some e => .error e
  | none => .ok s.categories

/-- `Author.find()`. -/
def Author.find (d : Driver) (s : Store) : Except Error (List Author) :=
  match d.fault "Author.find" with
  | some e => .error e
  | none => .ok s.authors

/-- `Song.find({ category: id })`: the Songs whose category array holds `id`. -/
def Song.findByCategory (d : Driver) (s : Store) (id : ObjectId) : Except Error (List Song) :=
  match d.fault "Song.find" with
  | some e => .error e
  | none => .ok (s.songs.filter (fun song => decide (id ∈ song.category)))

/-- `Category.findByIdAndRemove(id)`: removes the document of that id, if any. -/
def Category.findByIdAndRemove (d : Driver) (s : Store) (id : ObjectId) : Except Error Store :=
  match d.fault "Category.findByIdAndRemove" with
  | some e => .error e
  | none => .ok { s with categories := s.categories.eraseP (fun c => decide (c._id = id)) }

/-- `category.save()`. -/
def Category.save (d : Driver) (s : Store) (c : Category) : Except Error Store :=
  match d.fault "Category.save" with
  | some e => .error e
  | none =>
    match d.categoryInvalid c with
    | some e => .error e
    | none => .ok { s with categories := s.categories ++ [c] }

/-! ## Responses -/

/-- Values placed in a view's data bag or in an `async.parallel` result object. -/
inductive Value where
  | undefined
  | null
  | str (s : String)
  | category (c : Category)
  | populatedSong (s : PopulatedSong)
  | draft (s : SongDraft)
  | songs (l : List Song)
  | categories (l : List Category)
  | authors (l : List Author)
  | errors (l : List ValidationError)
  deriving DecidableEq, Repr

/-- A query result that is a document or `null`. -/
def Value.ofCategory : Option Category → Value
  | none => .null
  | some c => .category c

/-- What a handler did with the response. -/
inductive Response where
  | render (view : String) (locals : List (String × Value))
  | redirect (url : String)
  | next (err : Error)
  | throw (err : Error)
  deriving DecidableEq, Repr

/-! ## categoryController.js -/

/-- Handle category delete on POST. -/
def category_delete_post (d : Driver) (s : Store) (categoryid : ObjectId) : Store × Response :=
  match Category.findById d s categoryid with
  | .error err => (s, .next err)
  | .ok category =>
    match Song.findByCategory d s categoryid with
    | .error err => (s, .next err)
    | .ok categories_songs =>
      if categories_songs.length > 0 then
        (s, .render "category_delete"
          [("title", .str "Delete Category"),
           ("category", Value.ofCategory category),
           ("category_songs", .songs categories_songs)])
      else
        match Category.findByIdAndRemove d s categoryid with
        | .error err => (s, .next err)
        | .ok s' => (s', .redirect "/catalog/categories")

/-- Handle Category create on POST. -/
def category_create_post (d : Driver) (s : Store) (name : String) : Store × Response :=
  let (name', errors) := validateCategoryName name
  let category : Category := { _id := d.newId, name := name' }
  if !errors.isEmpty then
    (s, .render "category_form"
      [("title", .str "Create Category"),
       ("category", .category category),
       ("errors", .errors errors)])
  else
    match Category.findOne d s name' with
    | .error err => (s, .next err)
    | .ok (some found_category) => (s, .redirect (d.categoryUrl found_category))
    | .ok none =>
      match Category.save d s category with
      | .error err => (s, .next err)
      | .ok s' => (s', .redirect (d.categoryUrl category))

/-! ## routes/catalog.js: the upload storage -/

/-- File handed to the handler by `upload.single('image')`. -/
structure UploadedFile where
  fieldname : String
  filename : String
  deriving DecidableEq, Repr

/-- The `destination` of `multer.diskStorage` in `routes/catalog.js`. -/
def storageDestination : String := "../public/images/uploads"

/-- The `filename` of `multer.diskStorage`: `file.fieldname + '-' + Date.now()`. -/
def storageFilename (fieldname : String) (now : Nat) : String :=
  fieldname ++ "-" ++ toString now

/-- Where the disk storage writes an upload: the destination directory joined
with the stored filename. -/
def storedPath (filename : String) : String := storageDestination ++ "/" ++ filename

/-- The path read by `song_create_post`: the template
`public/images/$(req.file.filename)`. -/
def imageReadPath (filename : String) : String := "public/images/" ++ filename

/-! ## songController.js -/

/-- A form field as parsed from the request: absent, one string, or a list. -/
inductive FormValue where
  | undefined
  | str (v : String)
  | arr (l : List String)
  deriving DecidableEq, Repr

/-- The body of a Song form. -/
structure SongBody where
  title : String
  author : String
  summary : String
  price : String
  stock : String
  image : String
  category : FormValue
  deriving DecidableEq, Repr

/-- A Song create request: the body and the uploaded file, if any. -/
structure SongRequest where
  body : SongBody
  file : Option UploadedFile
  deriving DecidableEq, Repr

/-- The first middleware of `song_create_post` and of `song_update_post`:
convert the category to an array. -/
def categoryToArray (body : SongBody) : SongBody :=
  match body.category with
  | .arr _ => body
  | .undefined => { body with category := .arr [] }
  | .str v => { body with category := .arr [v] }

/-- The chain `body('category.*').escape()`. -/
def escapeEach : FormValue → FormValue
  | .arr l => .arr (l.map escape)
  | v => v

/-- The validation chains of the Song forms, with the five messages of the
`isLength` checks.  Returns the sanitised body and the failures in chain order. -/
def validateSong (mTitle mAuthor mSummary mPrice mStock : String) (b : SongBody) :
    SongBody × List ValidationError :=
  let title := validateRequired "title" mTitle b.title
  let author := validateRequired "author" mAuthor b.author
  let summary := validateRequired "summary" mSummary b.summary
  let price := validateRequired "price" mPrice b.price
  let stock := validateRequired "stock" mStock b.stock
  ({ title := title.1, author := author.1, summary := summary.1, price := price.1,
     stock := stock.1, image := escape b.image, category := escapeEach b.category },
   title.2 ++ author.2 ++ summary.2 ++ price.2 ++ stock.2)

/-- The elements of a category field that is a list. -/
def FormValue.toList : FormValue → List String
  | .arr l => l
  | .str v => [v]
  | .undefined => []

/-- Property read `o.k` on a result object: `undefined` when the key is absent. -/
def getProp (o : List (String × Value)) (k : String) : Value :=
  (o.lookup k).getD .undefined

/-- The `.length` of a value, when reading it does not throw: a list has its
length, `undefined` and `null` throw (`none`), other values have no length and
bound no iteration. -/
def Value.length? : Value → Option Nat
  | .undefined => none
  | .null => none
  | .str s => some s.length
  | .songs l => some l.length
  | .categories l => some l.length
  | .authors l => some l.length
  | .errors l => some l.length
  | .category _ => some 0
  | .populatedSong _ => some 0
  | .draft _ => some 0

/-- A query result that is a populated Song or `null`. -/
def Value.ofPopulatedSong : Option PopulatedSong → Value
  | none => .null
  | some s => .populatedSong s

/-- `Song.findById(id).populate('author').populate('category')`. -/
def Song.findByIdPopulated (d : Driver) (s : Store) (id : ObjectId) :
    Except Error (Option PopulatedSong) :=
  match d.fault "Song.findById" with
  | some e => .error e
  | none =>
    .ok ((s.songs.find? (fun x => decide (x._id = id))).map (fun x =>
      { _id := x._id, title := x.title,
        author := s.authors.find? (fun a => decide (a._id = x.author)),
        summary := x.summary, price := x.price, stock := x.stock, image := x.image,
        category := x.category.filterMap (fun cid =>
          s.categories.find? (fun c => decide (c._id = cid))) }))

/-- `song.save()`. -/
def Song.save (d : Driver) (s : Store) (draft : SongDraft) : Except Error (Song × Store) :=
  match d.fault "Song.save" with
  | some e => .error e
  | none =>
    match d.castSong draft with
    | .error e => .error e
    | .ok doc => .ok (doc, { s with songs := s.songs ++ [doc] })

/-- `Song.findByIdAndUpdate(id, song, {})`: the document found (as it was before
the update, or `null`) and the store afterwards. -/
def Song.findByIdAndUpdate (d : Driver) (s : Store) (id : ObjectId) (draft : SongDraft) :
    Except Error (Option Song × Store) :=
  match d.fault "Song.findByIdAndUpdate" with
  | some e => .error e
  | none =>
    match d.castSong draft with
    | .error e => .error e
    | .ok doc =>
      match s.songs.find? (fun x => decide (x._id = id)) with
      | none => .ok (none, s)
      | some old =>
        .ok (some old, { s with songs := s.songs.map (fun x => if x._id = id then doc else x) })

/-- The `TypeError` of reading a property of `undefined` or `null`. -/
def typeError (what : String) : Error :=
  { name := "TypeError", message := "Cannot read property " ++ what }

/-- The `ReferenceError` of evaluating an identifier that is not declared. -/
def referenceError (ident : String) : Error :=
  { name := "ReferenceError", message := ident ++ " is not defined" }

/-- The error of `fs.readFileSync` on a path that holds no file. -/
def enoent (path : String) : Error :=
  { name := "Error", message := "ENOENT: no such file or directory, open " ++ path }

/-- The error built by `song_detail` and `song_update_get`:
`new Error('Song not found')` with `status = 404`. -/
def songNotFound : Error :=
  { name := "Error", message := "Song not found", status := some 404 }

/-- Display detail page for a specific song. -/
def song_detail (d : Driver) (s : Store) (id : ObjectId) : Response :=
  match Song.findByIdPopulated d s id with
  | .error err => .next err
  | .ok song =>
    let results := [("song", Value.ofPopulatedSong song)]
    match getProp results "song" with
    | .null => .next songNotFound
    | .undefined => .throw (typeError "title")
    | .populatedSong sg => .render "song_detail" [("title", .str sg.title), ("song", .populatedSong sg)]
    | v => .render "song_detail" [("title", .undefined), ("song", v)]

/-- One pass of the body of the create/update POST marking loop, at index `i`:
`if (song.category.indexOf(results.categories[i]._id) > -1)
   results.categories[i].checked = 'true'`.
`none` when `results.categories[i]` is `undefined`. -/
def markSubmittedAt (selected : List String) (cs : List Category) (i : Nat) :
    Option (List Category) :=
  match cs.get? i with
  | none => none
  | some c =>
    some (if c._id.toString ∈ selected then cs.set i { c with checked := some "true" } else cs)

/-- The loop `for (let i = 0; i < n; i++)` of the create/update POST handlers. -/
def markSubmitted (selected : List String) (n : Nat) (cs : List Category) :
    Option (List Category) :=
  (List.range n).foldlM (markSubmittedAt selected) cs

/-- The inner loop of `song_update_get` for a fixed index `i` of the full list:
for every index `j` of the Song's category list, compare the two ids as strings
and mark `results.categories[i]` on equality. -/
def markSelectedAt (song : Option PopulatedSong) (cs : List Category) (i : Nat) :
    Option (List Category) :=
  match song with
  | none => none
  | some sg =>
    (List.range sg.category.length).foldlM (fun (acc : List Category) (j : Nat) =>
      match acc.get? i, sg.category.get? j with
      | some c, some g =>
        some (if c._id.toString = g._id.toString
              then acc.set i { c with checked := some "true" } else acc)
      | _, _ => none) cs

/-- The marking loop of `song_update_get`: the outer loop over the indices of
the full category list.  `none` when the loop throws, which it does on reading
`results.song.category` of a `null` Song. -/
def markSelected (song : Option PopulatedSong) (cs : List Category) : Option (List Category) :=
  (List.range cs.length).foldlM (markSelectedAt song) cs

/-- Display song update form on GET. -/
def song_update_get (d : Driver) (s : Store) (id : ObjectId) : Response :=
  match Song.findByIdPopulated d s id with
  | .error err => .next err
  | .ok song =>
    match Author.find d s with
    | .error err => .next err
    | .ok authors =>
      match Category.find d s with
      | .error err => .next err
      | .ok categories =>
        let results := [("song", Value.ofPopulatedSong song), ("authors", Value.authors authors),
                        ("categories", Value.categories categories)]
        if getProp results "book" = .null then .next songNotFound
        else
          match markSelected song categories with
          | none => .throw (typeError "category")
          | some marked =>
            .render "song_form"
              [("title", .str "Update Song"), ("authors", .authors authors),
               ("categories", .categories marked), ("song", Value.ofPopulatedSong song)]

/-- Handle song create on POST. -/
def song_create_post (d : Driver) (fsys : String → Option (List Nat)) (s : Store)
    (req : SongRequest) : Store × Response :=
  let validated := validateSong "Title must not be empty." "Author must not be empty."
    "Summary must not be empty." "Price must not be empty." "Stock must not be empty."
    (categoryToArray req.body)
  let body := validated.1
  let errors := validated.2
  match req.file with
  | none => (s, .throw (typeError "filename"))
  | some file =>
    match fsys (imageReadPath file.filename) with
    | none => (s, .throw (enoent (imageReadPath file.filename)))
    | some data =>
      let song : SongDraft :=
        { _id := d.newId, title := body.title, author := body.author, summary := body.summary,
          price := body.price, stock := body.stock, category := body.category.toList,
          image := .payload { data := data, contentType := "image/jpeg/png" } }
      if !errors.isEmpty then
        match Author.find d s with
        | .error err => (s, .next err)
        | .ok authors =>
          match Category.find d s with
          | .error err => (s, .next err)
          | .ok categories =>
            let results := [("authors", Value.authors authors),
                            ("categories", Value.categories categories)]
            match (getProp results "category").length? with
            | none => (s, .throw (typeError "length"))
            | some n =>
              match markSubmitted song.category n categories with
              | none => (s, .throw (typeError "_id"))
              | some marked =>
                (s, .render "song_form"
                  [("title", .str "Create Song"), ("authors", .authors authors),
                   ("categories", .categories marked), ("song", .draft song),
                   ("errors", .errors errors)])
      else
        match Song.save d s song with
        | .error err => (s, .next err)
        | .ok (doc, s') => (s', .redirect doc.url)

/-- The final handler of `song_update_post`, given what the identifier `errors`
is bound to where the handler runs (`none`: not declared). -/
def song_update_post_handler (errorsBinding : Option (List ValidationError)) (d : Driver)
    (s : Store) (id : ObjectId) (body : SongBody) : Store × Response :=
  let song : SongDraft :=
    { _id := id, title := body.title, author := body.author, summary := body.summary,
      price := body.price, stock := body.stock, category := body.category.toList,
      image := .text body.image }
  match errorsBinding with
  | none => (s, .throw (referenceError "errors"))
  | some errors =>
    if !errors.isEmpty then
      match Author.find d s with
      | .error err => (s, .next err)
      | .ok authors =>
        match Category.find d s with
        | .error err => (s, .next err)
        | .ok categories =>
          match markSubmitted song.category categories.length categories with
          | none => (s, .throw (typeError "_id"))
          | some marked =>
            (s, .render "song_form"
              [("title", .str "Update Song"), ("authors", .authors authors),
               ("categories", .categories marked), ("song", .draft song),
               ("errors", .errors errors)])
    else
      match Song.findByIdAndUpdate d s id song with
      | .error err => (s, .next err)
      | .ok (none, s') => (s', .throw (typeError "url"))
      | .ok (some thesong, s') => (s', .redirect thesong.url)

/-- Handle Song update on POST.  The validation chains run, but the final
handler holds no `const errors = validationResult(req)`: neither the handler nor
the module declares `errors`. -/
def song_update_post (d : Driver) (s : Store) (id : ObjectId) (body : SongBody) :
    Store × Response :=
  let validated := validateSong "Title must not be empty" "Author must not be empty."
    "Summary must not be empty." "Price must not be empty" "Stock must not be empty"
    (categoryToArray body)
  song_update_post_handler none d s id validated.1

/-! ## Specification-level definitions and concrete data -/

/-- A driver on which no storage operation fails. -/
def demoDriver : Driver :=
  { fault := fun _ => none
    newId := ⟨"n0"⟩
    categoryUrl := fun c => "/catalog/category/" ++ c._id.toString
    categoryInvalid := fun _ => none
    castSong := fun _ => .error { name := "ValidationError", message := "Song validation failed" } }

/-- Categories `A`, `B`, `C`. -/
def catA : Category := { _id := ⟨"a"⟩, name := "Rock" }

def catB : Category := { _id := ⟨"b"⟩, name := "Jazz" }

def catC : Category := { _id := ⟨"c"⟩, name := "Folk" }

/-- A Song in category `B`. -/
def songB : Song :=
  { _id := ⟨"s1"⟩, title := "Blue", author := ⟨"w"⟩, summary := "x", price := "1", stock := "2",
    image := none, category := [⟨"b"⟩] }

/-- A store with three Categories and one Song, which is in category `B`. -/
def demoStore : Store := { authors := [], categories := [catA, catB, catC], songs := [songB] }

/-- The effect of one comparison of the inner loop on the Category compared. -/
def markStep (c g : Category) : Category :=
  if c._id.toString = g._id.toString then { c with checked := some "true" } else c

/-- A Category after the marking loop: marked when its id, as a string, is the
id of some element of the Song's category list. -/
def markOne (gs : List Category) (c : Category) : Category :=
  if ∃ g ∈ gs, c._id.toString = g._id.toString then { c with checked := some "true" } else c

/-- The Song of the demo store with its references resolved. -/
def songBPopulated : PopulatedSong :=
  { _id := ⟨"s1"⟩, title := "Blue", author := none, summary := "x", price := "1", stock := "2",
    image := none, category := [catB] }

/-- A Song create request with an empty title, author `x`, and an upload. -/
def emptyTitleRequest : SongRequest :=
  { body := { title := "", author := "x", summary := "s", price := "1", stock := "1",
              image := "", category := .str "b" },
    file := some { fieldname := "image", filename := "image-1" } }

/-- A file system holding a file at the path the create handler reads. -/
def demoFiles (path : String) : Option (List Nat) :=
  if path = "public/images/image-1" then some [1, 2, 3] else none

/-- A Song update body with every required field filled in. -/
def filledBody : SongBody :=
  { title := "Blue", author := "w", summary := "x", price := "1", stock := "2", image := "",
    category := .arr ["b"] }

/-- The segments of the read path `public/images/<filename>`. -/
def imageReadSegments (filename : String) : List String := ["public", "images", filename]

/-- The segments of the stored path `../public/images/uploads/<filename>`. -/
def storedSegments (filename : String) : List String :=
  ["..", "public", "images", "uploads", filename]

/-- Resolution of a relative path, given by its segments, against the working
directory, given by its segments from the root: `..` steps to the parent,
`.` and the empty segment stay, any other segment descends. -/
def resolveSegments (cwd : List String) (segments : List String) : List String :=
  segments.foldl (fun acc seg =>
    if seg = ".." then acc.dropLast
    else if seg = "." ∨ seg = "" then acc
    else acc ++ [seg]) cwd

/-! ## Properties -/

section Lemmas

theorem mem_of_mem_trimChars {l : List Char} {c : Char} (h : c ∈ trimChars l) : c ∈ l := by
  unfold trimChars at h
  rw [List.mem_reverse] at h
  have h1 := (List.dropWhile_sublist isJsSpace).subset h
  rw [List.mem_reverse] at h1
  exact (List.dropWhile_sublist isJsSpace).subset h1

theorem escapeChar_of_alnum {c : Char} (h : isAlnumChar c = true) : escapeChar c = [c] := by
  unfold isAlnumChar at h
  simp only [Bool.or_eq_true, Bool.and_eq_true, decide_eq_true_eq] at h
  unfold escapeChar
  repeat' split
  all_goals first | rfl | omega

theorem flatMap_escapeChar_of_alnum (l : List Char) (h : l.all isAlnumChar = true) :
    l.flatMap escapeChar = l := by
  induction l with
  | nil => rfl
  | cons c t ih =>
    simp only [List.all_cons, Bool.and_eq_true] at h
    simp [List.flatMap_cons, escapeChar_of_alnum h.1, ih h.2]

theorem escape_of_isAlphanumeric {t : String} (h : isAlphanumeric t = true) : escape t = t := by
  unfold isAlphanumeric at h
  simp only [Bool.and_eq_true] at h
  unfold escape
  rw [flatMap_escapeChar_of_alnum _ h.2]

theorem isAlphanumeric_trim_of_no_alnum {name : String}
    (h : ∀ c ∈ name.data, isAlnumChar c = false) : isAlphanumeric (trim name) = false := by
  unfold isAlphanumeric trim
  cases ht : trimChars name.data with
  | nil => simp
  | cons c t =>
    have hc : c ∈ trimChars name.data := by rw [ht]; exact List.mem_cons_self _ _
    have := h c (mem_of_mem_trimChars hc)
    simp [this]

end Lemmas

theorem demoDriver_healthy : demoDriver.healthy := fun _ => rfl

/-! ### Category delete -/

/-- C1: when at least one Song's category list contains the submitted id (and
no storage operation fails), `category_delete_post` leaves the store as it was,
hands no error to `next`, and renders `category_delete` with `category_songs`
being exactly the Songs whose category list contains the id. -/
theorem category_delete_post_blocked (d : Driver) (hd : d.healthy) (s : Store)
    (categoryid : ObjectId) (h : ∃ song ∈ s.songs, categoryid ∈ song.category) :
    category_delete_post d s categoryid =
        (s, .render "category_delete"
          [("title", .str "Delete Category"),
           ("category", Value.ofCategory (s.categories.find? (fun c => decide (c._id = categoryid)))),
           ("category_songs",
             .songs (s.songs.filter (fun song => decide (categoryid ∈ song.category))))])
      ∧ (∀ song, song ∈ s.songs.filter (fun song => decide (categoryid ∈ song.category)) ↔
          (song ∈ s.songs ∧ categoryid ∈ song.category))
      ∧ (category_delete_post d s categoryid).1 = s
      ∧ (∀ err, (category_delete_post d s categoryid).2 ≠ .next err) := by
  have hlen : (s.songs.filter (fun song => decide (categoryid ∈ song.category))).length > 0 := by
    obtain ⟨song, hs, hc⟩ := h
    apply List.length_pos_of_mem (a := song)
    simp [List.mem_filter, hs, hc]
  have heq : category_delete_post d s categoryid =
        (s, .render "category_delete"
          [("title", .str "Delete Category"),
           ("category", Value.ofCategory (s.categories.find? (fun c => decide (c._id = categoryid)))),
           ("category_songs",
             .songs (s.songs.filter (fun song => decide (categoryid ∈ song.category))))]) := by
    simp only [category_delete_post, Category.findById, Song.findByCategory, hd _]
    rw [if_pos hlen]
  refine ⟨heq, ?_, ?_, ?_⟩
  · intro song
    simp [List.mem_filter]
  · rw [heq]
  · intro err
    rw [heq]
    simp

theorem category_delete_post_blocked_witness :
    (∃ song ∈ demoStore.songs, (⟨"b"⟩ : ObjectId) ∈ song.category) ∧
    (category_delete_post demoDriver demoStore ⟨"b"⟩).2 =
      .render "category_delete"
        [("title", .str "Delete Category"), ("category", .category catB),
         ("category_songs", .songs [songB])] :=
  ⟨⟨songB, by decide, by decide⟩,
   by
    have h := (category_delete_post_blocked demoDriver demoDriver_healthy demoStore ⟨"b"⟩
      ⟨songB, by decide, by decide⟩).1
    rw [h]
    decide⟩

theorem eraseP_eq_filter_of_nodup (l : List Category) (id : ObjectId)
    (hnd : (l.map (fun c => c._id)).Nodup) :
    l.eraseP (fun c => decide (c._id = id)) = l.filter (fun c => !decide (c._id = id)) := by
  induction l with
  | nil => rfl
  | cons c t ih =>
    rw [List.map_cons, List.nodup_cons] at hnd
    by_cases hc : c._id = id
    · have hall : ∀ x ∈ t, x._id ≠ id := by
        intro x hx hxid
        exact hnd.1 (List.mem_map.mpr ⟨x, hx, by rw [hxid, hc]⟩)
      have hf : t.filter (fun c => !decide (c._id = id)) = t := by
        apply List.filter_eq_self.mpr
        intro x hx
        simpa using hall x hx
      simp [List.eraseP_cons, hc, hf]
    · simp [List.eraseP_cons, hc, ih hnd.2]

theorem filter_ne_eraseP (l : List Category) (id : ObjectId) :
    (l.eraseP (fun c => decide (c._id = id))).filter (fun c => !decide (c._id = id)) =
      l.filter (fun c => !decide (c._id = id)) := by
  induction l with
  | nil => rfl
  | cons c t ih =>
    by_cases hc : c._id = id
    · simp [List.eraseP_cons, hc]
    · simp [List.eraseP_cons, hc, ih]

/-- C2: when no Song's category list contains the submitted id (and no storage
operation fails), `category_delete_post` redirects to `/catalog/categories` and
leaves the store with the Category of that id removed: Songs and Authors are
untouched, the Categories of every other id are exactly as before, the Category
count drops by exactly one when a Category of that id existed, and when none
existed the store is unchanged; no error is handed to `next`.  With distinct
ids the remaining Categories are exactly those of another id. -/
theorem category_delete_post_clear (d : Driver) (hd : d.healthy) (s : Store)
    (categoryid : ObjectId) (h : ∀ song ∈ s.songs, categoryid ∉ song.category) :
    category_delete_post d s categoryid =
        ({ s with categories := s.categories.eraseP (fun c => decide (c._id = categoryid)) },
         .redirect "/catalog/categories")
      ∧ (category_delete_post d s categoryid).1.songs = s.songs
      ∧ (category_delete_post d s categoryid).1.authors = s.authors
      ∧ (category_delete_post d s categoryid).1.categories.filter
            (fun c => !decide (c._id = categoryid)) =
          s.categories.filter (fun c => !decide (c._id = categoryid))
      ∧ ((∃ c ∈ s.categories, c._id = categoryid) →
          (category_delete_post d s categoryid).1.categories.length + 1 = s.categories.length)
      ∧ ((∀ c ∈ s.categories, c._id ≠ categoryid) →
          (category_delete_post d s categoryid).1 = s)
      ∧ ((s.categories.map (fun c => c._id)).Nodup →
          (category_delete_post d s categoryid).1.categories =
            s.categories.filter (fun c => !decide (c._id = categoryid)))
      ∧ (∀ err, (category_delete_post d s categoryid).2 ≠ .next err) := by
  have hnil : s.songs.filter (fun song => decide (categoryid ∈ song.category)) = [] := by
    apply List.filter_eq_nil_iff.mpr
    intro song hs
    simpa using h song hs
  have heq : category_delete_post d s categoryid =
        ({ s with categories := s.categories.eraseP (fun c => decide (c._id = categoryid)) },
         .redirect "/catalog/categories") := by
    simp [category_delete_post, Category.findById, Song.findByCategory,
      Category.findByIdAndRemove, hd _, hnil]
  refine ⟨heq, ?_, ?_, ?_, ?_, ?_, ?_, ?_⟩
  · rw [heq]
  · rw [heq]
  · rw [heq]
    exact filter_ne_eraseP s.categories categoryid
  · rintro ⟨c, hc, hid⟩
    rw [heq]
    have hl : (s.categories.eraseP (fun c => decide (c._id = categoryid))).length =
        s.categories.length - 1 :=
      List.length_eraseP_of_mem (p := fun c => decide (c._id = categoryid)) hc (by simp [hid])
    have hpos : 0 < s.categories.length := List.length_pos_of_mem hc
    simp only [hl]
    omega
  · intro hno
    rw [heq]
    have he : s.categories.eraseP (fun c => decide (c._id = categoryid)) = s.categories := by
      apply List.eraseP_of_forall_not
      intro c hc
      simpa using hno c hc
    simp [he]
  · intro hnd
    rw [heq]
    exact eraseP_eq_filter_of_nodup s.categories categoryid hnd
  · intro err
    rw [heq]
    simp

theorem category_delete_post_clear_witness :
    (∀ song ∈ demoStore.songs, (⟨"a"⟩ : ObjectId) ∉ song.category) ∧
    category_delete_post demoDriver demoStore ⟨"a"⟩ =
      ({ authors := [], categories := [catB, catC], songs := [songB] },
       .redirect "/catalog/categories") :=
  ⟨by decide,
   by
    have h := (category_delete_post_clear demoDriver demoDriver_healthy demoStore ⟨"a"⟩
      (by decide)).1
    rw [h]
    decide⟩

/-! ### Category create -/

theorem isAlphanumeric_of_valid {name : String} (hv : (validateCategoryName name).2 = []) :
    isAlphanumeric (trim name) = true := by
  unfold validateCategoryName at hv
  simp only [List.append_eq_nil] at hv
  by_contra hne
  have h2 := hv.2
  rw [if_neg hne] at h2
  exact absurd h2 (List.cons_ne_nil _ _)

/-- C3: when the submitted name passes validation and its trimmed value is the
name of a Category in the store (and no storage operation fails),
`category_create_post` redirects to the url of a stored Category of that name
(the one the lookup finds) and leaves the store unchanged. -/
theorem category_create_post_existing (d : Driver) (hd : d.healthy) (s : Store) (name : String)
    (hv : (validateCategoryName name).2 = [])
    (hex : ∃ c ∈ s.categories, c.name = trim name) :
    ∃ found ∈ s.categories, found.name = trim name ∧
      s.categories.find? (fun c => decide (c.name = trim name)) = some found ∧
      category_create_post d s name = (s, .redirect (d.categoryUrl found)) := by
  have halnum := isAlphanumeric_of_valid hv
  have hesc : escape (trim name) = trim name := escape_of_isAlphanumeric halnum
  obtain ⟨c, hc, hn⟩ := hex
  have hsome : (s.categories.find? (fun c => decide (c.name = trim name))).isSome = true := by
    rw [List.find?_isSome]
    exact ⟨c, hc, by simp [hn]⟩
  obtain ⟨found, hfound⟩ := Option.isSome_iff_exists.mp hsome
  refine ⟨found, List.mem_of_find?_eq_some hfound, ?_, hfound, ?_⟩
  · simpa using List.find?_some hfound
  · have hfst : (validateCategoryName name).1 = trim name := by
      simp [validateCategoryName, hesc]
    simp only [category_create_post, hv, hfst, Category.findOne, hd _, hfound]
    simp

theorem category_create_post_existing_witness :
    (validateCategoryName " Jazz ").2 = [] ∧ (∃ c ∈ demoStore.categories, c.name = trim " Jazz ") ∧
    ∃ found ∈ demoStore.categories, found.name = trim " Jazz " ∧
      demoStore.categories.find? (fun c => decide (c.name = trim " Jazz ")) = some found ∧
      category_create_post demoDriver demoStore " Jazz " =
        (demoStore, .redirect (demoDriver.categoryUrl found)) :=
  ⟨by decide, ⟨catB, by decide, by decide⟩,
   category_create_post_existing demoDriver demoDriver_healthy demoStore " Jazz " (by decide)
     ⟨catB, by decide, by decide⟩⟩

/-- C4: when no character of the submitted name is alphanumeric,
`category_create_post` builds a non-empty failure list holding a failure on the
field `name`, renders `category_form` again with that list, and leaves the
store unchanged (no Category is saved). -/
theorem category_create_post_non_alphanumeric (d : Driver) (s : Store) (name : String)
    (h : ∀ c ∈ name.data, isAlnumChar c = false) :
    (validateCategoryName name).2 ≠ []
      ∧ (∃ e ∈ (validateCategoryName name).2, e.param = "name")
      ∧ category_create_post d s name =
          (s, .render "category_form"
            [("title", .str "Create Category"),
             ("category", .category { _id := d.newId, name := escape (trim name) }),
             ("errors", .errors (validateCategoryName name).2)]) := by
  have hna := isAlphanumeric_trim_of_no_alnum h
  have hmem : ValidationError.mk "name" "Category is non-alphanumeric characters." (trim name)
      ∈ (validateCategoryName name).2 := by
    simp [validateCategoryName, hna]
  have hne : (validateCategoryName name).2 ≠ [] := List.ne_nil_of_mem hmem
  refine ⟨hne, ⟨_, hmem, rfl⟩, ?_⟩
  have hemp : (validateCategoryName name).2.isEmpty = false := by
    cases hl : (validateCategoryName name).2 with
    | nil => exact absurd hl hne
    | cons _ _ => rfl
  have hfst : (validateCategoryName name).1 = escape (trim name) := rfl
  simp only [category_create_post, hemp, hfst]
  simp

theorem category_create_post_non_alphanumeric_witness :
    (∀ c ∈ " -- ".data, isAlnumChar c = false) ∧
    category_create_post demoDriver demoStore " -- " =
      (demoStore, .render "category_form"
        [("title", .str "Create Category"),
         ("category", .category { _id := ⟨"n0"⟩, name := "--" }),
         ("errors", .errors
           [ValidationError.mk "name" "Category is non-alphanumeric characters." "--"])]) :=
  ⟨by decide,
   by
    have h := (category_create_post_non_alphanumeric demoDriver demoStore " -- " (by decide)).2.2
    rw [h]
    decide⟩

/-! ### The marking loop of the update form -/

theorem foldl_markStep (gs : List Category) (c : Category) :
    gs.foldl markStep c = markOne gs c := by
  induction gs generalizing c with
  | nil => simp [markOne]
  | cons g t ih =>
    rw [List.foldl_cons, ih]
    by_cases hg : c._id.toString = g._id.toString
    · have h1 : markStep c g = { c with checked := some "true" } := by simp [markStep, hg]
      rw [h1]
      unfold markOne
      by_cases ht : ∃ g' ∈ t, c._id.toString = g'._id.toString
      · simp [ht, hg]
      · simp [ht, hg]
    · have h1 : markStep c g = c := by simp [markStep, hg]
      rw [h1]
      unfold markOne
      simp [hg]

theorem set_of_getElem? {α : Type} (l : List α) (i : Nat) (c : α) (h : l[i]? = some c) :
    l.set i c = l := by
  apply List.ext_getElem?
  intro k
  rw [List.getElem?_set]
  split_ifs with h1 h2
  · subst h1; exact h.symm
  · subst h1
    exact absurd (List.getElem?_eq_some_iff.mp h).1 h2
  · rfl

theorem inner_loop_upto (gs : List Category) (acc : List Category) (i : Nat) (c : Category)
    (hi : acc.get? i = some c) (n : Nat) (hn : n ≤ gs.length) :
    (List.range n).foldlM (fun (acc : List Category) (j : Nat) =>
      match acc.get? i, gs.get? j with
      | some c, some g =>
        some (if c._id.toString = g._id.toString
              then acc.set i { c with checked := some "true" } else acc)
      | _, _ => none) acc = some (acc.set i ((gs.take n).foldl markStep c)) := by
  have hlt : i < acc.length := by
    rw [List.get?_eq_getElem?] at hi
    exact (List.getElem?_eq_some_iff.mp hi).1
  induction n with
  | zero =>
    simp only [List.range_zero, List.foldlM_nil, List.take_zero, List.foldl_nil]
    rw [List.get?_eq_getElem?] at hi
    rw [set_of_getElem? acc i c hi]
    rfl
  | succ n ih =>
    have hn1 : n < gs.length := by omega
    rw [List.range_succ, List.foldlM_append, ih (by omega)]
    have hg : gs.get? n = some gs[n] := by
      rw [List.get?_eq_getElem?]; exact List.getElem?_eq_getElem hn1
    have hget : (acc.set i ((gs.take n).foldl markStep c)).get? i =
        some ((gs.take n).foldl markStep c) := by
      rw [List.get?_eq_getElem?]
      simp [List.getElem?_set, hlt]
    have htake : gs.take (n + 1) = gs.take n ++ [gs[n]] := by
      rw [List.take_succ, List.getElem?_eq_getElem hn1]; rfl
    simp only [bind, Option.bind, List.foldlM_cons, List.foldlM_nil, hget, hg, htake,
      List.foldl_append, List.foldl_cons, List.foldl_nil, pure]
    congr 1
    by_cases hc : ((gs.take n).foldl markStep c)._id.toString = gs[n]._id.toString
    · simp [markStep, hc, List.set_set]
    · simp [markStep, hc]

theorem markSelectedAt_some (sg : PopulatedSong) (acc : List Category) (i : Nat) (c : Category)
    (hi : acc.get? i = some c) :
    markSelectedAt (some sg) acc i = some (acc.set i (markOne sg.category c)) := by
  have h := inner_loop_upto sg.category acc i c hi sg.category.length (le_refl _)
  rw [List.take_length, foldl_markStep] at h
  exact h

theorem outer_loop_upto (sg : PopulatedSong) (cs : List Category) (n : Nat) (hn : n ≤ cs.length) :
    (List.range n).foldlM (markSelectedAt (some sg)) cs =
      some ((cs.take n).map (markOne sg.category) ++ cs.drop n) := by
  induction n with
  | zero => simp [pure]
  | succ n ih =>
    have hn1 : n < cs.length := by omega
    rw [List.range_succ, List.foldlM_append, ih (by omega)]
    have hget : ((cs.take n).map (markOne sg.category) ++ cs.drop n).get? n = some cs[n] := by
      rw [List.get?_eq_getElem?, List.getElem?_append_right (by simp)]
      simp [List.length_take, Nat.min_eq_left (Nat.le_of_lt hn1), List.getElem?_drop,
        List.getElem?_eq_getElem hn1]
    simp only [List.foldlM_cons, List.foldlM_nil, Option.bind_eq_bind, Option.some_bind,
      Option.pure_def, Option.bind_some]
    rw [markSelectedAt_some sg _ n cs[n] hget]
    congr 1
    apply List.ext_getElem?
    intro k
    simp only [List.getElem?_set, List.getElem?_append, List.getElem?_map, List.getElem?_take,
      List.getElem?_drop, List.length_map, List.length_take, List.length_append,
      List.length_drop]
    rcases Nat.lt_trichotomy k n with hk | hk | hk
    · have h1 : ¬ n = k := by omega
      have h2 : k < min n cs.length := by omega
      have h3 : k < min (n + 1) cs.length := by omega
      have h4 : k < n + 1 := by omega
      simp [h1, h2, h3, hk, h4]
    · subst hk
      have h3 : k < min (k + 1) cs.length := by omega
      simp [h3, List.getElem?_eq_getElem hn1]
      omega
    · have h1 : ¬ n = k := by omega
      have h2 : ¬ k < min n cs.length := by omega
      have h3 : ¬ k < min (n + 1) cs.length := by omega
      simp only [h1, h2, h3, if_false]
      congr 1
      omega

theorem markSelected_some (sg : PopulatedSong) (cs : List Category) :
    markSelected (some sg) cs = some (cs.map (markOne sg.category)) := by
  unfold markSelected
  rw [outer_loop_upto sg cs cs.length (le_refl _)]
  simp

/-- C5: for every list of Categories none of which is marked beforehand and
every existing Song, the marking loop of `song_update_get` completes, keeps the
list's length, ids and names, and marks the Category at an index with
`checked = 'true'` exactly when its id, as a string, equals the id of some
element of the Song's category list (all others stay unmarked); listing the
Categories in another order yields the same marked Categories, reordered. -/
theorem markSelected_marks_exactly_selected (cs : List Category) (song : PopulatedSong)
    (hun : ∀ c ∈ cs, c.checked = none) :
    ∃ marked, markSelected (some song) cs = some marked
      ∧ marked.length = cs.length
      ∧ (∀ (i : Nat) (h : i < cs.length) (hm : i < marked.length),
          marked[i]._id = cs[i]._id ∧ marked[i].name = cs[i].name
          ∧ (marked[i].checked = some "true" ↔
              ∃ g ∈ song.category, cs[i]._id.toString = g._id.toString)
          ∧ (marked[i].checked ≠ some "true" → marked[i].checked = none))
      ∧ (∀ cs2 : List Category, cs2.Perm cs →
          ∃ marked2, markSelected (some song) cs2 = some marked2 ∧ marked2.Perm marked) := by
  refine ⟨cs.map (markOne song.category), markSelected_some song cs, by simp, ?_, ?_⟩
  · intro i h hm
    have hc : cs[i].checked = none := hun _ (List.getElem_mem h)
    simp only [List.getElem_map]
    unfold markOne
    by_cases hex : ∃ g ∈ song.category, cs[i]._id.toString = g._id.toString
    · simp [hex]
    · simp [hex, hc]
  · intro cs2 hp
    exact ⟨cs2.map (markOne song.category), markSelected_some song cs2, hp.map _⟩

theorem markSelected_marks_exactly_selected_witness :
    (∀ c ∈ [catA, catB, catC], c.checked = none) ∧
    markSelected (some songBPopulated) [catA, catB, catC] =
      some [catA, { catB with checked := some "true" }, catC] ∧
    markSelected (some songBPopulated) [catC, catB, catA] =
      some [catC, { catB with checked := some "true" }, catA] ∧
    ∃ marked, markSelected (some songBPopulated) [catA, catB, catC] = some marked
      ∧ marked.length = [catA, catB, catC].length
      ∧ (∀ (i : Nat) (h : i < [catA, catB, catC].length) (hm : i < marked.length),
          marked[i]._id = [catA, catB, catC][i]._id ∧ marked[i].name = [catA, catB, catC][i].name
          ∧ (marked[i].checked = some "true" ↔
              ∃ g ∈ songBPopulated.category,
                [catA, catB, catC][i]._id.toString = g._id.toString)
          ∧ (marked[i].checked ≠ some "true" → marked[i].checked = none))
      ∧ (∀ cs2 : List Category, cs2.Perm [catA, catB, catC] →
          ∃ marked2, markSelected (some songBPopulated) cs2 = some marked2 ∧
            marked2.Perm marked) :=
  ⟨by decide, by decide, by decide,
   markSelected_marks_exactly_selected [catA, catB, catC] songBPopulated (by decide)⟩

/-! ### Song create -/

theorem title_failure_of_empty (mT mA mS mP mK : String) (b : SongBody)
    (h : trim b.title = "") :
    ValidationError.mk "title" mT "" ∈ (validateSong mT mA mS mP mK b).2 := by
  simp [validateSong, validateRequired, h, isLengthMin1]

/-- C6 (the code departs from the claim): for every Song create POST whose
title is empty after trimming, validation does record a failure on `title` and
no Song is persisted, but `song_create_post` never renders a view: the handler
always finishes in an error, and when no storage operation fails it finishes in
a thrown exception (reading `req.file.filename`, reading the image file, or
reading `results.category.length`, where `results` has no `category`). -/
theorem song_create_post_empty_title_never_renders (d : Driver)
    (fsys : String → Option (List Nat)) (s : Store) (req : SongRequest)
    (h : trim req.body.title = "") :
    (∃ e ∈ (validateSong "Title must not be empty." "Author must not be empty."
          "Summary must not be empty." "Price must not be empty." "Stock must not be empty."
          (categoryToArray req.body)).2, e.param = "title")
      ∧ (song_create_post d fsys s req).1 = s
      ∧ (∀ view locals, (song_create_post d fsys s req).2 ≠ .render view locals)
      ∧ (d.healthy → ∃ e, (song_create_post d fsys s req).2 = .throw e) := by
  have ht : trim (categoryToArray req.body).title = "" := by
    unfold categoryToArray
    split <;> exact h
  have hmem := title_failure_of_empty "Title must not be empty." "Author must not be empty."
    "Summary must not be empty." "Price must not be empty." "Stock must not be empty."
    (categoryToArray req.body) ht
  have hemp : (validateSong "Title must not be empty." "Author must not be empty."
      "Summary must not be empty." "Price must not be empty." "Stock must not be empty."
      (categoryToArray req.body)).2.isEmpty = false := by
    cases hl : (validateSong "Title must not be empty." "Author must not be empty."
      "Summary must not be empty." "Price must not be empty." "Stock must not be empty."
      (categoryToArray req.body)).2 with
    | nil => rw [hl] at hmem; exact absurd hmem (List.not_mem_nil _)
    | cons _ _ => rfl
  have hprop : ∀ (a : List Author) (c : List Category),
      (getProp [("authors", Value.authors a), ("categories", Value.categories c)]
        "category").length? = none := by
    intro a c
    simp [getProp, List.lookup, Value.length?]
  have hform : song_create_post d fsys s req =
      (s, match req.file with
          | none => Response.throw (typeError "filename")
          | some file =>
            match fsys (imageReadPath file.filename) with
            | none => Response.throw (enoent (imageReadPath file.filename))
            | some _ =>
              match d.fault "Author.find" with
              | some e => Response.next e
              | none =>
                match d.fault "Category.find" with
                | some e => Response.next e
                | none => Response.throw (typeError "length")) := by
    unfold song_create_post
    simp only [hemp, hprop, Bool.not_false, if_true]
    cases req.file with
    | none => rfl
    | some file =>
      simp only []
      cases fsys (imageReadPath file.filename) with
      | none => rfl
      | some data =>
        simp only [Author.find, Category.find]
        cases d.fault "Author.find" <;> cases d.fault "Category.find" <;> rfl
  refine ⟨⟨_, hmem, rfl⟩, ?_, ?_, ?_⟩
  · rw [hform]
  · intro view locals
    rw [hform]
    simp only []
    repeat' split
    all_goals simp
  · intro hd
    rw [hform]
    simp only [hd _]
    repeat' split
    all_goals exact ⟨_, rfl⟩

theorem song_create_post_empty_title_never_renders_witness :
    trim emptyTitleRequest.body.title = "" ∧
    song_create_post demoDriver demoFiles demoStore emptyTitleRequest =
      (demoStore, .throw (typeError "length")) ∧
    ∀ view locals,
      (song_create_post demoDriver demoFiles demoStore emptyTitleRequest).2 ≠
        .render view locals :=
  ⟨by decide, by decide,
   (song_create_post_empty_title_never_renders demoDriver demoFiles demoStore emptyTitleRequest
     (by decide)).2.2.1⟩

/-! ### Song update -/

/-- The final handler of `song_update_post` in a scope where `errors` is declared
and empty: the stored Song of the id is overwritten and the response redirects
to its url. -/
theorem song_update_post_handler_declared (d : Driver) (hd : d.healthy) (s : Store)
    (id : ObjectId) (body : SongBody) (old doc : Song)
    (hfind : s.songs.find? (fun x => decide (x._id = id)) = some old)
    (hcast : d.castSong
      { _id := id, title := body.title, author := body.author, summary := body.summary,
        price := body.price, stock := body.stock, category := body.category.toList,
        image := .text body.image } = .ok doc) :
    song_update_post_handler (some []) d s id body =
      ({ s with songs := s.songs.map (fun x => if x._id = id then doc else x) },
       .redirect ("/catalog/song/" ++ id.toString)) := by
  have hid : old._id = id := by simpa using List.find?_some hfind
  simp [song_update_post_handler, Song.findByIdAndUpdate, hd _, hcast, hfind, Song.url, hid]

/-- C7 (the code departs from the claim): `song_update_post` finishes, for every
store, id and body, in the `ReferenceError` of evaluating the undeclared
`errors`: the store, and so every stored Song, is as before, and the response
is neither a redirect nor a rendered view. -/
theorem song_update_post_throws (d : Driver) (s : Store) (id : ObjectId) (body : SongBody) :
    song_update_post d s id body = (s, .throw (referenceError "errors"))
      ∧ (song_update_post d s id body).1.songs = s.songs
      ∧ (∀ url, (song_update_post d s id body).2 ≠ .redirect url)
      ∧ (∀ view locals, (song_update_post d s id body).2 ≠ .render view locals) := by
  have h : song_update_post d s id body = (s, .throw (referenceError "errors")) := rfl
  refine ⟨h, ?_, ?_, ?_⟩
  · rw [h]
  · intro url
    rw [h]
    simp
  · intro view locals
    rw [h]
    simp

/-- A concrete update request: updating the stored Song `s1` with a fully
filled body leaves the Song as it was and sends no redirect to its url. -/
theorem song_update_post_filled_body :
    song_update_post demoDriver demoStore ⟨"s1"⟩ filledBody =
        (demoStore, .throw (referenceError "errors"))
      ∧ (song_update_post demoDriver demoStore ⟨"s1"⟩ filledBody).2 ≠
          .redirect "/catalog/song/s1" := by
  decide

/-! ### Category normalisation -/

/-- C8: the first middleware of the Song POST handlers leaves `body.category` a
list, the empty list when it was absent, `[v]` when it was the single string
`v`, the same list when it already was one, and changes no other field. -/
theorem categoryToArray_spec (b : SongBody) :
    (∃ l, (categoryToArray b).category = .arr l)
      ∧ categoryToArray { b with category := .undefined } = { b with category := .arr [] }
      ∧ (∀ v, categoryToArray { b with category := .str v } = { b with category := .arr [v] })
      ∧ (∀ l, categoryToArray { b with category := .arr l } = { b with category := .arr l })
      ∧ (categoryToArray b).title = b.title
      ∧ (categoryToArray b).author = b.author
      ∧ (categoryToArray b).summary = b.summary
      ∧ (categoryToArray b).price = b.price
      ∧ (categoryToArray b).stock = b.stock
      ∧ (categoryToArray b).image = b.image
      ∧ (∀ fsys d s file, song_create_post d fsys s { body := b, file := file } =
          song_create_post d fsys s { body := categoryToArray b, file := file })
      ∧ (∀ d s id, song_update_post d s id b = song_update_post d s id (categoryToArray b)) := by
  have hidem : categoryToArray (categoryToArray b) = categoryToArray b := by
    rcases b with ⟨t, a, su, p, st, im, c⟩
    cases c <;> rfl
  refine ⟨?_, rfl, fun _ => rfl, fun _ => rfl, ?_, ?_, ?_, ?_, ?_, ?_, ?_, ?_⟩
  · rcases b with ⟨t, a, su, p, st, im, c⟩
    cases c
    · exact ⟨[], rfl⟩
    · exact ⟨[_], rfl⟩
    · exact ⟨_, rfl⟩
  all_goals first
    | (rcases b with ⟨t, a, su, p, st, im, c⟩; cases c <;> rfl)
    | (intros; simp only [song_create_post, song_update_post, hidem])

/-! ### The uploaded image -/

/-- C9 (the code departs from the claim): for every stored filename the path
`song_create_post` reads, `public/images/<filename>`, differs from the path at
which the upload storage wrote the file, `../public/images/uploads/<filename>`;
resolved against any working directory the two paths still name different
files. -/
theorem imageReadPath_ne_storedPath (filename : String) :
    imageReadPath filename ≠ storedPath filename
      ∧ (String.intercalate "/" (imageReadSegments filename) = imageReadPath filename
          ∧ String.intercalate "/" (storedSegments filename) = storedPath filename)
      ∧ ∀ cwd : List String,
          resolveSegments cwd (imageReadSegments filename) ≠
            resolveSegments cwd (storedSegments filename) := by
  refine ⟨?_, ⟨?_, ?_⟩, ?_⟩
  · intro h
    have hd := congrArg (fun p : String => p.data.head?) h
    simp [imageReadPath, storedPath, storageDestination] at hd
  · simp [imageReadSegments, imageReadPath, String.intercalate, String.intercalate.go]
  · simp [storedSegments, storedPath, storageDestination, String.intercalate,
      String.intercalate.go]
  · intro cwd h
    have hr := congrArg List.reverse h
    by_cases h1 : filename = ".."
    · subst h1
      simp [resolveSegments, imageReadSegments, storedSegments, List.dropLast_concat] at hr
    · by_cases h2 : filename = "." ∨ filename = ""
      · simp [resolveSegments, imageReadSegments, storedSegments, h1, h2] at hr
      · simp [resolveSegments, imageReadSegments, storedSegments, h1, h2] at hr

/-- The upload stored as `image-1` is written to
`../public/images/uploads/image-1` and read from `public/images/image-1`. -/
theorem imageReadPath_ne_storedPath_example :
    storageFilename "image" 1 = "image-1"
      ∧ storedPath "image-1" = "../public/images/uploads/image-1"
      ∧ imageReadPath "image-1" = "public/images/image-1"
      ∧ imageReadPath "image-1" ≠ storedPath "image-1" := by
  decide

/-! ### Song update form for an absent Song -/

theorem markSelected_none (cs : List Category) :
    markSelected none cs = if cs = [] then some [] else none := by
  cases cs with
  | nil => rfl
  | cons c t =>
    unfold markSelected
    rw [List.length_cons, List.range_succ_eq_map, List.foldlM_cons]
    simp [markSelectedAt]

theorem findByIdPopulated_absent (d : Driver) (hd : d.healthy) (s : Store) (id : ObjectId)
    (h : ∀ song ∈ s.songs, song._id ≠ id) : Song.findByIdPopulated d s id = .ok none := by
  have hf : s.songs.find? (fun x => decide (x._id = id)) = none := by
    rw [List.find?_eq_none]
    intro x hx
    simpa using h x hx
  simp [Song.findByIdPopulated, hd _, hf]

/-- C10 (the code departs from the claim): when no Song of the requested id
exists and no storage operation fails, `song_detail` hands the 404 error
`Song not found` to `next`, but `song_update_get` does not: its guard reads
`results.book`, which is `undefined` and so never `null`; with no Category in
the store it renders `song_form` with a `null` Song, and otherwise the marking
loop throws on reading `results.song.category`. -/
theorem song_update_get_absent_song (d : Driver) (hd : d.healthy) (s : Store) (id : ObjectId)
    (h : ∀ song ∈ s.songs, song._id ≠ id) :
    song_detail d s id = .next songNotFound
      ∧ song_update_get d s id ≠ .next songNotFound
      ∧ (∀ err, song_update_get d s id ≠ .next err)
      ∧ (s.categories = [] →
          song_update_get d s id =
            .render "song_form"
              [("title", .str "Update Song"), ("authors", .authors s.authors),
               ("categories", .categories []), ("song", .null)])
      ∧ (s.categories ≠ [] → song_update_get d s id = .throw (typeError "category")) := by
  have hfind := findByIdPopulated_absent d hd s id h
  have hform : song_update_get d s id =
      if s.categories = [] then
        .render "song_form"
          [("title", .str "Update Song"), ("authors", .authors s.authors),
           ("categories", .categories []), ("song", .null)]
      else .throw (typeError "category") := by
    unfold song_update_get
    simp only [hfind, Author.find, Category.find, hd _, markSelected_none]
    by_cases hc : s.categories = []
    · simp [hc, getProp, List.lookup, Value.ofPopulatedSong]
    · simp [hc, getProp, List.lookup, Value.ofPopulatedSong]
  refine ⟨?_, ?_, ?_, ?_, ?_⟩
  · unfold song_detail
    simp [hfind, getProp, List.lookup, Value.ofPopulatedSong]
  · rw [hform]
    split <;> simp
  · intro err
    rw [hform]
    split <;> simp
  · intro hc
    rw [hform, if_pos hc]
  · intro hc
    rw [hform, if_neg hc]

theorem song_update_get_absent_song_witness :
    (∀ song ∈ demoStore.songs, song._id ≠ (⟨"zz"⟩ : ObjectId)) ∧
    song_detail demoDriver demoStore ⟨"zz"⟩ = .next songNotFound ∧
    song_update_get demoDriver demoStore ⟨"zz"⟩ = .throw (typeError "category") :=
  ⟨by decide,
   (song_update_get_absent_song demoDriver demoDriver_healthy demoStore ⟨"zz"⟩ (by decide)).1,
   by decide⟩

end Inventory
